import Mathlib

/-!
# A shallow embedding of the n-ulricksen/nes emulator core

This file embeds, in Lean, the parts of the Go NES emulator that the
verified properties talk about: mapper 0 address translation, the iNES
cartridge loader, the 6502 CPU (SBC, indirect JMP, NMI service), the PPU
CPU-port registers (PPUSTATUS, PPUDATA), the PPU scanline/cycle/frame
counters, and the bus OAM-DMA engine.

Machine integers are modelled as Nat with explicit masking / `% 2^w`
where the Go code relies on fixed-width wraparound.  Byte-array memories
are modelled as functions `Nat → Nat`; a store is a pointwise functional
update.  Functions that the Go code makes fallible through `log.Fatalf`
are modelled with `Except String`.

The repository contains several flattened revisions of some files.  Each
definition below names the revision (file and function) it is translated
from.
-/

namespace Nes

/-! ## Mapper 0 (NROM)

Translated from `Mapper000.cpuMapRead` in the revision whose interface
matches `src/nes/mapper.go` (`cpuMapRead(uint16) uint16`): addresses in
0x8000..0xFFFF are masked with 0x7FFF when the cartridge has more than
one 16 KiB PRG bank, and with 0x3FFF when it has a single bank. -/
def mapper000CpuMapRead (prgBanks addr : Nat) : Nat :=
  if 0x8000 ≤ addr ∧ addr ≤ 0xFFFF then
    if 1 < prgBanks then addr &&& 0x7FFF
    else addr &&& 0x3FFF
  else addr

/-- `Mapper000.cpuMapRead` from the earlier revision with the
`cpuMapRead(uint16, *uint16) bool` interface (the one used by
`src/nes/cartridge.go`).  There the two mask branches are swapped:
more than one PRG bank selects the 0x3FFF mask, a single bank selects
0x7FFF, contradicting the comment block directly above it. -/
def mapper000CpuMapReadOld (prgBanks addr : Nat) : Option Nat :=
  if 0x8000 ≤ addr ∧ addr ≤ 0xFFFF then
    if 1 < prgBanks then some (addr &&& 0x3FFF)
    else some (addr &&& 0x7FFF)
  else none

/-! ## Cartridge loading (`src/nes/cartridge.go`, `NewCartridge`) -/

/-- Mapper 0 state (`Mapper000` struct): PRG and CHR bank counts. -/
structure Mapper000 where
  prgBanks : Nat
  chrBanks : Nat
deriving DecidableEq

/-- An NES cartridge as built by `NewCartridge`: PRG memory, CHR memory
and the (optionally selected) mapper. -/
structure Cartridge where
  prgMem : List Nat
  chrMem : List Nat
  mapper : Option Mapper000
deriving DecidableEq

/-- The mapper id computed by `NewCartridge` from iNES flags 6 and 7:
`mapperId = (Mapper2 >> 4) << 4 | (Mapper1 >> 4)`. -/
def inesMapperId (mapper1 mapper2 : Nat) : Nat :=
  ((mapper2 >>> 4) <<< 4) ||| (mapper1 >>> 4)

/-- `NewCartridge` (src/nes/cartridge.go lines 35-108) on the bytes of
the ROM file.  Each `binary.Read` that can run out of input becomes an
`Except.error`; the mapper switch has a single arm for id 0 and silently
leaves the mapper unset otherwise; the fully built cartridge value is
dropped and the function returns `nil`, modelled as `Except.ok none`. -/
def newCartridge (data : List Nat) : Except String (Option Cartridge) :=
  if data.length < 16 then Except.error "Unable to parse header"
  else
    let prgRomChunks := data.getD 4 0
    let chrRomChunks := data.getD 5 0
    let mapper1 := data.getD 6 0
    let mapper2 := data.getD 7 0
    let rest := data.drop 16
    if 0 < mapper1 &&& (1 <<< 3) ∧ rest.length < 512 then
      Except.error "Unable to read trainer data"
    else
      let rest := if 0 < mapper1 &&& (1 <<< 3) then rest.drop 512 else rest
      let mapperId := inesMapperId mapper1 mapper2
      let mapper : Option Mapper000 :=
        if mapperId = 0 then some ⟨prgRomChunks, chrRomChunks⟩ else none
      let prgLen := 16 * 1024 * prgRomChunks
      if rest.length < prgLen then Except.error "Unable to read PRG memory"
      else
        let prgMem := rest.take prgLen
        let rest := rest.drop prgLen
        let chrLen := 8 * 1024 * chrRomChunks
        if rest.length < chrLen then Except.error "Unable to read CHR memory"
        else
          let chrMem := rest.take chrLen
          let rest := rest.drop chrLen
          if 0 < mapper2 &&& (1 <<< 2) ∧ rest.length < 8192 then
            Except.error "Unable to read PlayChoice INST-ROM data"
          else
            -- The Go code assembles this cartridge value and then
            -- returns nil instead of it.
            let _cartridge : Cartridge := ⟨prgMem, chrMem, mapper⟩
            Except.ok none

/-! ## 6502 CPU (`src/nes/util.go`, `Cpu6502`)

The CPU-visible 16-bit address space (reads and writes through the bus)
is modelled as a function field `mem`. -/

structure Cpu6502 where
  Pc : Nat
  Sp : Nat
  A : Nat
  X : Nat
  Y : Nat
  Status : Nat
  Cycles : Nat
  Opcode : Nat
  AddrAbs : Nat
  AddrRel : Nat
  Fetched : Nat
  isImpliedAddr : Bool
  CycleCount : Nat
  mem : Nat → Nat

/-- Status flag bits (SF6502 constants). -/
def statusFlagC : Nat := 1
def statusFlagZ : Nat := 2
def statusFlagI : Nat := 4
def statusFlagD : Nat := 8
def statusFlagB : Nat := 16
def statusFlagX : Nat := 32
def statusFlagV : Nat := 64
def statusFlagN : Nat := 128

/-- NMI vector address constant (`nmiVectAddr`). -/
def nmiVectAddr : Nat := 0xFFFA

/-- `Cpu6502.setFlag` acting on a status byte. -/
def setFlag (status flag : Nat) (b : Prop) [Decidable b] : Nat :=
  if b then status ||| flag else status &&& (0xFF ^^^ flag)

/-- `Cpu6502.getFlag`. -/
def getFlag (status flag : Nat) : Nat := status &&& flag

/-- `Cpu6502.write` routed through the bus: a pointwise store. -/
def cpuWrite (s : Cpu6502) (addr data : Nat) : Cpu6502 :=
  { s with mem := fun a => if a = addr then data else s.mem a }

/-- `Cpu6502.readWord`: little-endian 16-bit read. -/
def cpuReadWord (s : Cpu6502) (addr : Nat) : Nat :=
  (s.mem ((addr + 1) % 65536) <<< 8) ||| s.mem addr

/-- `Cpu6502.stackPush`: write at 0x0100|SP, then decrement SP (byte
wraparound). -/
def stackPush (s : Cpu6502) (data : Nat) : Cpu6502 :=
  let s := cpuWrite s (0x0100 ||| s.Sp) data
  { s with Sp := (s.Sp + 255) % 256 }

/-- `Cpu6502.fetch`: load the operand byte unless the addressing mode is
implied. -/
def cpuFetch (s : Cpu6502) : Cpu6502 :=
  if s.isImpliedAddr then s else { s with Fetched := s.mem s.AddrAbs }

/-- Addressing mode IMM (`amIMM`): operand is at PC.  Returns the extra
cycle count. -/
def amIMM (s : Cpu6502) : Cpu6502 × Nat :=
  ({ s with AddrAbs := s.Pc, Pc := (s.Pc + 1) % 65536 }, 0)

/-- Addressing mode IND (`amIND`, src/nes/util.go lines 487-503),
including the 6502 page-wrap hardware bug: when the low byte of the
pointer is 0xFF the high byte of the target is read from the start of
the pointer's page instead of pointer+1. -/
def amIND (s : Cpu6502) : Cpu6502 × Nat :=
  let addr := cpuReadWord s s.Pc
  let s := { s with Pc := (s.Pc + 2) % 65536 }
  if addr &&& 0xFF = 0xFF then
    let lo := s.mem addr
    let hi := s.mem (addr &&& 0xFF00)
    ({ s with AddrAbs := (hi <<< 8) ||| lo }, 0)
  else
    ({ s with AddrAbs := cpuReadWord s addr }, 0)

/-- `opJMP`: set PC to the effective address. -/
def opJMP (s : Cpu6502) : Cpu6502 × Nat :=
  ({ s with Pc := s.AddrAbs }, 0)

/-- `opSBC` (src/nes/util.go lines 1182-1208): subtract with carry via
ones-complement addition; flags C, Z, N from the 16-bit result, V from
the sign bits (`v = (a != m && m == r)`). -/
def opSBC (s : Cpu6502) : Cpu6502 × Nat :=
  let s := cpuFetch s
  let sub := s.Fetched ^^^ 0x00FF
  let result := s.A + sub + getFlag s.Status statusFlagC
  let st := setFlag s.Status statusFlagC (0xFF < result)
  let st := setFlag st statusFlagZ (result % 256 = 0)
  let st := setFlag st statusFlagN (0 < result &&& 0x80)
  let a := s.A &&& 0x80
  let m := s.Fetched &&& 0x80
  let r := (result % 256) &&& 0x80
  let st := setFlag st statusFlagV (a ≠ m ∧ m = r)
  ({ s with Status := st, A := result % 256 }, 1)

/-- `Cpu6502.NMI` (src/nes/util.go lines 306-326): push PC high then
low, set the I, B and X flags on the status register, push the status,
load PC from the little-endian vector at 0xFFFA/0xFFFB, and load the
cycle counter with 8. -/
def cpuNMI (s : Cpu6502) : Cpu6502 :=
  let pcHi := (s.Pc >>> 8) &&& 0x00FF
  let pcLo := s.Pc &&& 0x00FF
  let s := stackPush s pcHi
  let s := stackPush s pcLo
  let s := { s with Status := setFlag s.Status statusFlagI True }
  let s := { s with Status := setFlag s.Status statusFlagB True }
  let s := { s with Status := setFlag s.Status statusFlagX True }
  let s := stackPush s s.Status
  let s := { s with Pc := cpuReadWord s nmiVectAddr }
  { s with Cycles := 8 }

/-- One instruction-boundary pass of `Cpu6502.Clock` for opcode 0xE9
(SBC immediate): fetch opcode, advance PC, take base cycles 2 from the
lookup row, run `amIMM` then `opSBC`, add the AND of the two extra-cycle
results, then the trailing bookkeeping of `Clock` (clear implied flag,
bump CycleCount, decrement Cycles). -/
def cpuClockSbcImm (s : Cpu6502) : Cpu6502 :=
  let s := { s with Opcode := s.mem s.Pc }
  let s := { s with Pc := (s.Pc + 1) % 65536 }
  let s := { s with Cycles := 2 }
  let p1 := amIMM s
  let p2 := opSBC p1.1
  let s := { p2.1 with Cycles := p2.1.Cycles + (p1.2 &&& p2.2) }
  let s := { s with isImpliedAddr := false }
  let s := { s with CycleCount := s.CycleCount + 1 }
  { s with Cycles := s.Cycles - 1 }

/-- One instruction-boundary pass of `Cpu6502.Clock` for opcode 0x6C
(JMP indirect, base cycles 5 from the lookup row). -/
def cpuClockJmpInd (s : Cpu6502) : Cpu6502 :=
  let s := { s with Opcode := s.mem s.Pc }
  let s := { s with Pc := (s.Pc + 1) % 65536 }
  let s := { s with Cycles := 5 }
  let p1 := amIND s
  let p2 := opJMP p1.1
  let s := { p2.1 with Cycles := p2.1.Cycles + (p1.2 &&& p2.2) }
  let s := { s with isImpliedAddr := false }
  let s := { s with CycleCount := s.CycleCount + 1 }
  { s with Cycles := s.Cycles - 1 }

/-- Concrete CPU state for the SBC borrow scenario: A=0x50, carry set,
and the bytes E9 F0 (SBC #$F0) at the program counter. -/
def sbcTestState : Cpu6502 :=
  { Pc := 0x8000, Sp := 0xFD, A := 0x50, X := 0, Y := 0, Status := 0x01,
    Cycles := 0, Opcode := 0, AddrAbs := 0, AddrRel := 0, Fetched := 0,
    isImpliedAddr := false, CycleCount := 0,
    mem := fun a => if a = 0x8000 then 0xE9 else if a = 0x8001 then 0xF0 else 0 }

/-- Concrete CPU state for exercising NMI service. -/
def nmiTestState : Cpu6502 :=
  { Pc := 0x1234, Sp := 0xFD, A := 0, X := 0, Y := 0, Status := 0,
    Cycles := 0, Opcode := 0, AddrAbs := 0, AddrRel := 0, Fetched := 0,
    isImpliedAddr := false, CycleCount := 0, mem := fun _ => 0 }

/-! ## PPU registers (`src/nes/ppu.go` with the pointer-receiver
`PpuReg` helpers, and `src/nes/ppuLoopyReg.go`)

The register file and memories reachable from `Ppu.cpuRead` /
`Ppu.cpuWrite`.  The cartridge's CHR memory is held as a byte function;
the current `Cartridge.ppuRead` source file is not under src/ (only its
callers are).  Modelled from the spec: CHR 0x0000-0x1FFF maps directly
to CHR[addr] for mapper 0. -/

/-- Nametable mirroring modes referenced by `nametableRead` and
`nametableWrite` (`mirrorHorizontal` / `mirrorVertical`). -/
inductive Mirroring where
  | horizontal
  | vertical
deriving DecidableEq

structure Ppu where
  ppuCtrl : Nat
  ppuMask : Nat
  ppuStatus : Nat
  dataBuffer : Nat
  vRam : Nat
  tRam : Nat
  scrollFineX : Nat
  addrLatch : Nat
  nameTable0 : Nat → Nat
  nameTable1 : Nat → Nat
  paletteTable : Nat → Nat
  chrMem : Nat → Nat
  mirroring : Mirroring

/-- PPUSTATUS flag bits (bits 5..7). -/
def statusSpriteOverflow : Nat := 32
def statusSprite0Hit : Nat := 64
def statusVBlank : Nat := 128

/-- PPUCTRL vram-increment flag (bit 2). -/
def ctrlVramInc : Nat := 4

/-- PPUMASK show-background and show-sprite flags (bits 3 and 4). -/
def maskBgShow : Nat := 8
def maskSpriteShow : Nat := 16

/-- `PpuReg.clearFlag` (pointer-receiver revision, the one the current
`Ppu` methods compile against): clear the flag's bits in a byte
register. -/
def ppuRegClearFlag (r flag : Nat) : Nat := r &&& (0xFF ^^^ flag)

/-- `PpuReg.setFlag` (pointer-receiver revision). -/
def ppuRegSetFlag (r flag : Nat) : Nat := r ||| flag

/-- `PpuReg.getFlag` (pointer-receiver revision): 0 or 1. -/
def ppuRegGetFlag (r flag : Nat) : Nat := if r &&& flag = 0 then 0 else 1

/-- `PpuLoopyReg.setNametable`: replace bits 10-11. -/
def loopySetNametable (r v : Nat) : Nat :=
  (r &&& (0xFFFF ^^^ (0x3 <<< 10))) ||| ((v &&& 0x3) <<< 10)

/-- `PpuLoopyReg.setCoarseX`: replace bits 0-4. -/
def loopySetCoarseX (r v : Nat) : Nat :=
  (r &&& (0xFFFF ^^^ 0x1F)) ||| (v &&& 0x1F)

/-- `PpuLoopyReg.setCoarseY`: replace bits 5-9. -/
def loopySetCoarseY (r v : Nat) : Nat :=
  (r &&& (0xFFFF ^^^ (0x1F <<< 5))) ||| ((v &&& 0x1F) <<< 5)

/-- `PpuLoopyReg.setFineY`: replace bits 12-14. -/
def loopySetFineY (r v : Nat) : Nat :=
  (r &&& (0xFFFF ^^^ (0x7 <<< 12))) ||| ((v &&& 0x7) <<< 12)

/-- `getNametableId`: which of the four logical nametables a relative
address 0x0000-0x0FFF falls in. -/
def getNametableId (addr : Nat) : Nat :=
  if addr < 0x0400 then 0
  else if addr < 0x0800 then 1
  else if addr < 0x0C00 then 2
  else 3

/-- `Ppu.nametableRead`: mirroring-aware nametable fetch.  In the Go
code a logical table 1 or 2 with a mirroring mode other than horizontal
or vertical leaves `data` zero; the `Mirroring` type here has exactly
those two modes. -/
def nametableRead (p : Ppu) (addr : Nat) : Nat :=
  let addr := addr &&& 0x0FFF
  let id := getNametableId addr
  if id = 0 then p.nameTable0 (addr &&& 0x3FF)
  else if id = 1 then
    match p.mirroring with
    | Mirroring.horizontal => p.nameTable0 (addr &&& 0x3FF)
    | Mirroring.vertical => p.nameTable1 (addr &&& 0x3FF)
  else if id = 2 then
    match p.mirroring with
    | Mirroring.horizontal => p.nameTable1 (addr &&& 0x3FF)
    | Mirroring.vertical => p.nameTable0 (addr &&& 0x3FF)
  else p.nameTable1 (addr &&& 0x3FF)

/-- `Ppu.nametableWrite`. -/
def nametableWrite (p : Ppu) (addr data : Nat) : Ppu :=
  let addr := addr &&& 0x0FFF
  let id := getNametableId addr
  let idx := addr &&& 0x3FF
  if id = 0 then
    { p with nameTable0 := fun a => if a = idx then data else p.nameTable0 a }
  else if id = 1 then
    match p.mirroring with
    | Mirroring.horizontal =>
        { p with nameTable0 := fun a => if a = idx then data else p.nameTable0 a }
    | Mirroring.vertical =>
        { p with nameTable1 := fun a => if a = idx then data else p.nameTable1 a }
  else if id = 2 then
    match p.mirroring with
    | Mirroring.horizontal =>
        { p with nameTable1 := fun a => if a = idx then data else p.nameTable1 a }
    | Mirroring.vertical =>
        { p with nameTable0 := fun a => if a = idx then data else p.nameTable0 a }
  else { p with nameTable1 := fun a => if a = idx then data else p.nameTable1 a }

/-- `Ppu.ppuRead` (src/nes/ppu.go lines 427-450): mask to the 14-bit
PPU space, then route to pattern tables (cartridge CHR), nametables, or
palette RAM with its four mirrored entries. -/
def ppuRead (p : Ppu) (addr : Nat) : Nat :=
  let addr := addr &&& 0x3FFF
  if addr ≤ 0x1FFF then p.chrMem addr
  else if 0x2000 ≤ addr ∧ addr ≤ 0x3EFF then nametableRead p addr
  else if 0x3F00 ≤ addr ∧ addr ≤ 0x3FFF then
    let a := addr &&& 0x1F
    let a := if a = 0x0010 ∨ a = 0x0014 ∨ a = 0x0018 ∨ a = 0x001C then a - 0x10 else a
    p.paletteTable a
  else 0

/-- `Ppu.ppuWrite`. -/
def ppuWriteAt (p : Ppu) (addr data : Nat) : Ppu :=
  let addr := addr &&& 0x3FFF
  if addr ≤ 0x1FFF then
    { p with chrMem := fun a => if a = addr then data else p.chrMem a }
  else if 0x2000 ≤ addr ∧ addr ≤ 0x3EFF then nametableWrite p addr data
  else if 0x3F00 ≤ addr ∧ addr ≤ 0x3FFF then
    let a := addr &&& 0x1F
    let a := if a = 0x0010 ∨ a = 0x0014 ∨ a = 0x0018 ∨ a = 0x001C then a - 0x10 else a
    { p with paletteTable := fun i => if i = a then data else p.paletteTable i }
  else p

/-- `Ppu.cpuRead` (src/nes/ppu.go lines 315-357) for the register index
already mirrored to 0..7 by the bus.  Returns the byte placed on the
bus and the updated PPU.

Port 2 (PPUSTATUS): return the top three status bits, clear the V-blank
flag, and reset the address latch.  Port 7 (PPUDATA): return the read
buffer, refill the buffer from V, bypass the buffer when V is in the
palette range, then increment V by 1 or 32 depending on PPUCTRL bit 2.
All other ports return zero and leave the PPU unchanged. -/
def ppuCpuRead (p : Ppu) (addr : Nat) : Nat × Ppu :=
  if addr = 0x0002 then
    let data := p.ppuStatus &&& 0xE0
    (data, { p with ppuStatus := ppuRegClearFlag p.ppuStatus statusVBlank,
                    addrLatch := 0 })
  else if addr = 0x0007 then
    let data := p.dataBuffer
    let buffered := ppuRead p p.vRam
    let data := if 0x3F00 ≤ p.vRam then buffered else data
    let inc := if ppuRegGetFlag p.ppuCtrl ctrlVramInc = 0 then 1 else 32
    (data, { p with dataBuffer := buffered, vRam := (p.vRam + inc) % 65536 })
  else (0, p)

/-- `Ppu.cpuWrite` (src/nes/ppu.go lines 359-424) for the register
index already mirrored to 0..7 by the bus. -/
def ppuCpuWrite (p : Ppu) (addr data : Nat) : Ppu :=
  if addr = 0x0000 then
    { p with ppuCtrl := data, tRam := loopySetNametable p.tRam (data &&& 0x3) }
  else if addr = 0x0001 then
    { p with ppuMask := data }
  else if addr = 0x0005 then
    if p.addrLatch = 0 then
      { p with tRam := loopySetCoarseX p.tRam ((data &&& 0xF8) >>> 3),
               scrollFineX := data &&& 0x7,
               addrLatch := 1 }
    else
      { p with tRam := loopySetFineY
                 (loopySetCoarseY p.tRam ((data &&& 0xF8) >>> 3)) (data &&& 0x7),
               addrLatch := 0 }
  else if addr = 0x0006 then
    if p.addrLatch = 0 then
      let t := ((data &&& 0x3F) <<< 8) ||| (p.tRam &&& 0xFF)
      let t := t &&& (0xFFFF ^^^ (1 <<< 14))
      { p with tRam := t, addrLatch := 1 }
    else
      let t := (p.tRam &&& 0xFF00) ||| data
      { p with tRam := t, vRam := t, addrLatch := 0 }
  else if addr = 0x0007 then
    let p := ppuWriteAt p p.vRam data
    let inc := if ppuRegGetFlag p.ppuCtrl ctrlVramInc = 0 then 1 else 32
    { p with vRam := (p.vRam + inc) % 65536 }
  else p

/-! ## PPU frame timing (`src/nes/ppu.go`, `Ppu.Clock` lines 139-157
and the odd-frame skip in `Ppu.renderBackground` lines 164-176)

The projection of the PPU state onto the fields the scanline/cycle
state machine reads and writes: `scanline`, `cycle`, `frames`, and the
mask register (kept here because the claims relate the skip to the
rendering-enable bits; nothing in `Clock` or the skip consults it).
The remaining work of `renderBackground` (shifter, fetch and scroll
updates, status flags) never touches these four fields. -/

structure PpuTiming where
  scanline : Int
  cycle : Nat
  frames : Nat
  ppuMask : Nat
deriving DecidableEq

/-- One `Ppu.Clock` tick, restricted to the timing fields: first the
odd-frame skip from `renderBackground` (inside the `scanline >= -1 &&
scanline < 240` block: at scanline 0, cycle 0, on odd frame counts the
cycle counter is pre-incremented, with no rendering-enabled check),
then the cycle increment with wrap at 341 and the scanline wrap from
260 back to -1, counting a finished frame. -/
def ppuTimingClock (s : PpuTiming) : PpuTiming :=
  let cycle :=
    if -1 ≤ s.scanline ∧ s.scanline < 240 ∧ s.scanline = 0 ∧ s.cycle = 0 ∧
        s.frames % 2 = 1 then
      s.cycle + 1
    else s.cycle
  let cycle := cycle + 1
  if 341 ≤ cycle then
    if 261 ≤ s.scanline + 1 then
      { scanline := -1, cycle := 0, frames := s.frames + 1, ppuMask := s.ppuMask }
    else
      { scanline := s.scanline + 1, cycle := 0, frames := s.frames, ppuMask := s.ppuMask }
  else { s with cycle := cycle }

/-! ## Bus clock and OAM DMA (`src/nes/bus.go`, `Bus.Clock` lines
176-195 and `Bus.initDmaTransfer` lines 197-219)

The projection of the bus onto the fields the DMA engine and the NMI
hand-off of `Bus.Clock` read and write, plus counters for how often the
PPU and the CPU were clocked.  `ram` is the 8 KiB work-RAM array
indexed through the 2 KiB mirror mask 0x07FF; `oam` is the PPU's object
attribute memory flattened to 256 bytes (each `oamSprite` contributes 4
bytes, written through `objectAttributeMemory.write` at index `addr`,
pointer-entry revision).  `ppuNmi` is the PPU's `nmi` output flag that
`Bus.Clock` polls; `cpuSp`, `cpuPc` and `cpuStatus` are the CPU
registers `Cpu6502.NMI` touches; `cartVecLo`/`cartVecHi` are the
cartridge bytes at the NMI vector 0xFFFA/0xFFFB (PRG is read-only on
this bus, so constant fields are exact).  `Cpu.Clock` and `Ppu.Clock`
touch none of the DMA fields, so they are abstracted to the tick
counters, with the one PPU output `Bus.Clock` consumes — whether a PPU
tick raises the `nmi` flag — supplied by an oracle (see `busClock`);
`CpuRead` is modelled for the work-RAM region that OAM DMA sources from
(pages 0x00-0x1F), other devices are out of this projection. -/

structure BusDma where
  clockCount : Nat
  dmaPage : Nat
  dmaAddr : Nat
  dmaData : Nat
  dmaTransfer : Bool
  dmaNeedSync : Bool
  ram : Nat → Nat
  oam : Nat → Nat
  cpuTicks : Nat
  ppuTicks : Nat
  ppuNmi : Bool
  cpuSp : Nat
  cpuPc : Nat
  cpuStatus : Nat
  cartVecLo : Nat
  cartVecHi : Nat

/-- `Bus.CpuRead` restricted to the work-RAM region 0x0000-0x1FFF
(mirror mask 0x07FF).  DMA source addresses outside RAM are routed to
other devices in the Go code and are not part of this projection. -/
def busCpuReadRam (ram : Nat → Nat) (addr : Nat) : Nat :=
  if addr ≤ 0x1FFF then ram (addr &&& 0x7FF) else 0

/-- `Bus.initDmaTransfer`: one suspended-CPU slot of the DMA state
machine.  While `dmaNeedSync` is set, wait for an odd master count; then
alternate reading CPU memory on even master counts and writing OAM on
odd ones; after the 256th write the address wraps to zero and the
transfer ends. -/
def busDmaTick (s : BusDma) : BusDma :=
  if s.dmaNeedSync then
    if s.clockCount % 2 = 1 then { s with dmaNeedSync := false } else s
  else
    if s.clockCount % 2 = 0 then
      { s with dmaData := busCpuReadRam s.ram ((s.dmaPage <<< 8) ||| s.dmaAddr) }
    else
      let newAddr := (s.dmaAddr + 1) % 256
      let s' := { s with
        oam := fun i => if i = s.dmaAddr then s.dmaData else s.oam i,
        dmaAddr := newAddr }
      if newAddr = 0 then
        { s' with dmaTransfer := false, dmaNeedSync := true }
      else s'

/-- The NMI hand-off of `Bus.Clock` (lines 189-192) as it acts on this
projection: `Cpu6502.NMI` (util.go lines 306-326) with every memory
access routed through the bus.  The three `stackPush`es write
`0x0100 ||| Sp` through `Bus.CpuWrite`, which for addresses ≤ 0x1FFF
stores into `Ram[addr &&& 0x7FF]` — inside the 2 KiB work-RAM mirror —
and decrement the byte-wide stack pointer; the flag sets use the CPU's
`setFlag`; the vector fetch `readWord(0xFFFA)` goes through
`Bus.CpuRead` to the cartridge (little endian).  `Cycles = 8` is CPU
countdown state that only delays the next instruction after the CPU
resumes; it is outside this projection, which counts `Cpu.Clock`
invocations. -/
def busNmiHandoff (s : BusDma) : BusDma :=
  let pcHi := (s.cpuPc >>> 8) &&& 0x00FF
  let pcLo := s.cpuPc &&& 0x00FF
  let s := { s with
    ram := fun j => if j = (0x0100 ||| s.cpuSp) &&& 0x7FF then pcHi else s.ram j,
    cpuSp := (s.cpuSp + 255) % 256 }
  let s := { s with
    ram := fun j => if j = (0x0100 ||| s.cpuSp) &&& 0x7FF then pcLo else s.ram j,
    cpuSp := (s.cpuSp + 255) % 256 }
  let s := { s with
    cpuStatus :=
      setFlag (setFlag (setFlag s.cpuStatus statusFlagI True) statusFlagB True)
        statusFlagX True }
  let s := { s with
    ram := fun j =>
      if j = (0x0100 ||| s.cpuSp) &&& 0x7FF then s.cpuStatus else s.ram j,
    cpuSp := (s.cpuSp + 255) % 256 }
  { s with cpuPc := (s.cartVecHi <<< 8) ||| s.cartVecLo }

/-- `Bus.Clock`: clock the PPU on every master tick; on every third
master tick either run the DMA engine (CPU suspended) or clock the CPU;
if the PPU has raised its NMI flag, clear it and service the NMI on the
CPU; then advance the master counter.  The PPU itself is abstracted to
the tick counter plus the one output `Bus.Clock` consumes: `raise t`
says whether the PPU tick taken at master count `t` sets `Ppu.nmi` (in
the program this happens when the PPU reaches scanline 241, cycle 1
with NMI enabled; quantifying over every oracle `raise` covers every
behaviour of the concrete PPU). -/
def busClock (raise : Nat → Bool) (s : BusDma) : BusDma :=
  let s := { s with ppuTicks := s.ppuTicks + 1,
                    ppuNmi := s.ppuNmi || raise s.clockCount }
  let s :=
    if s.clockCount % 3 = 0 then
      if s.dmaTransfer then busDmaTick s
      else { s with cpuTicks := s.cpuTicks + 1 }
    else s
  let s := if s.ppuNmi then { busNmiHandoff s with ppuNmi := false } else s
  { s with clockCount := s.clockCount + 1 }

/-- The `Bus.CpuWrite` branch for address 0x4014: latch the page, reset
the DMA address and start the transfer. -/
def busWrite4014 (s : BusDma) (data : Nat) : BusDma :=
  { s with dmaPage := data, dmaAddr := 0, dmaTransfer := true }

/-- Concrete bus state just after a write of page 0x02 to 0x4014 at
master count 0, with the PPU's NMI flag down. -/
def dmaTestState : BusDma :=
  { clockCount := 1, dmaPage := 2, dmaAddr := 0, dmaData := 0,
    dmaTransfer := true, dmaNeedSync := true, ram := fun _ => 0,
    oam := fun _ => 0, cpuTicks := 0, ppuTicks := 0, ppuNmi := false,
    cpuSp := 0xFD, cpuPc := 0x8000, cpuStatus := 0x24,
    cartVecLo := 0, cartVecHi := 0x80 }

/-! ## Theorems -/

/-- C1: for every CPU address in 0x8000..0xFFFF, mapper 0's
`cpuMapRead` yields `addr - 0x8000` (equivalently `addr &&& 0x7FFF`)
with two 16 KiB PRG banks, and `addr &&& 0x3FFF` with one bank, so that
0x8000-0xBFFF and 0xC000-0xFFFF alias the same 16 KiB. -/
theorem c1_mapper0_cpu_map_read (addr : Nat)
    (h1 : 0x8000 ≤ addr) (h2 : addr ≤ 0xFFFF) :
    mapper000CpuMapRead 2 addr = addr - 0x8000 ∧
    mapper000CpuMapRead 2 addr = addr &&& 0x7FFF ∧
    mapper000CpuMapRead 1 addr = addr &&& 0x3FFF ∧
    (addr ≤ 0xBFFF →
      mapper000CpuMapRead 1 addr = mapper000CpuMapRead 1 (addr + 0x4000)) := by
  have hmod15 : addr &&& 0x7FFF = addr % 32768 := by
    have h := Nat.and_pow_two_sub_one_eq_mod addr 15
    norm_num at h
    exact h
  have hmod14 : ∀ b : Nat, b &&& 0x3FFF = b % 16384 := by
    intro b
    have h := Nat.and_pow_two_sub_one_eq_mod b 14
    norm_num at h
    exact h
  have e2 : mapper000CpuMapRead 2 addr = addr &&& 0x7FFF := by
    unfold mapper000CpuMapRead
    rw [if_pos (And.intro h1 h2)]
    norm_num
  have e1 : mapper000CpuMapRead 1 addr = addr &&& 0x3FFF := by
    unfold mapper000CpuMapRead
    rw [if_pos (And.intro h1 h2)]
    norm_num
  refine ⟨?_, e2, e1, ?_⟩
  · rw [e2, hmod15]
    omega
  · intro h3
    have e1b : mapper000CpuMapRead 1 (addr + 0x4000) = (addr + 0x4000) &&& 0x3FFF := by
      unfold mapper000CpuMapRead
      rw [if_pos (And.intro (by omega) (by omega))]
      norm_num
    rw [e1, e1b, hmod14 addr, hmod14 (addr + 0x4000)]
    omega

/-- Witness for C1 at the concrete address 0x9ABC. -/
theorem c1_mapper0_cpu_map_read_witness :
    0x8000 ≤ 0x9ABC ∧ 0x9ABC ≤ 0xFFFF ∧
    (mapper000CpuMapRead 2 0x9ABC = 0x9ABC - 0x8000 ∧
     mapper000CpuMapRead 2 0x9ABC = 0x9ABC &&& 0x7FFF ∧
     mapper000CpuMapRead 1 0x9ABC = 0x9ABC &&& 0x3FFF ∧
     (0x9ABC ≤ 0xBFFF →
       mapper000CpuMapRead 1 0x9ABC = mapper000CpuMapRead 1 (0x9ABC + 0x4000))) :=
  ⟨by decide, by decide,
    c1_mapper0_cpu_map_read 0x9ABC (by decide) (by decide)⟩

set_option maxRecDepth 4000 in
/-- Stack-page addresses: for a byte-sized stack pointer, OR-ing with
the stack base 0x0100 is plain addition. -/
theorem stackBaseOr : ∀ y < 256, 0x0100 ||| y = 0x0100 + y := by decide

/-- C2 counterexample: running SBC #$F0 from A=0x50, C=1 yields A=0x60
with C=0, Z=0, N=0 — and V=0, not V=1 as the claim states. -/
theorem c2_sbc_borrow_cex :
    (cpuClockSbcImm sbcTestState).A = 0x60 ∧
    (cpuClockSbcImm sbcTestState).Status &&& statusFlagC = 0 ∧
    (cpuClockSbcImm sbcTestState).Status &&& statusFlagZ = 0 ∧
    (cpuClockSbcImm sbcTestState).Status &&& statusFlagN = 0 ∧
    (cpuClockSbcImm sbcTestState).Status &&& statusFlagV = 0 := by
  decide

/-- C2 as amended: executing SBC #$F0 from any CPU state with A=0x50
and carry set leaves A=0x60 and C=0, Z=0, N=0, V=0 (the operands 0x50
and 0xF0 have no signed overflow: 80 - (-16) = 96). -/
theorem c2_sbc_borrow_amended (s : Cpu6502)
    (hImp : s.isImpliedAddr = false)
    (hA : s.A = 0x50)
    (hC : s.Status &&& statusFlagC = 1)
    (hOp : s.mem ((s.Pc + 1) % 65536) = 0xF0) :
    (cpuClockSbcImm s).A = 0x60 ∧
    (cpuClockSbcImm s).Status &&& statusFlagC = 0 ∧
    (cpuClockSbcImm s).Status &&& statusFlagZ = 0 ∧
    (cpuClockSbcImm s).Status &&& statusFlagN = 0 ∧
    (cpuClockSbcImm s).Status &&& statusFlagV = 0 := by
  have hxor : ((240 : Nat) ^^^ 255) = 15 := by decide
  simp only [cpuClockSbcImm, amIMM, opSBC, cpuFetch, getFlag, setFlag,
    statusFlagC, statusFlagZ, statusFlagN, statusFlagV, hImp, hA, hOp,
    Bool.false_eq_true, if_false]
  have hC1 : s.Status &&& 1 = 1 := hC
  rw [hxor, hC1]
  norm_num
  simp only [Nat.land_assoc]
  have h96 : ((96 : Nat) &&& 128) = 0 := by decide
  simp [h96, Nat.land_assoc]
  have k1 : (254 &&& (253 &&& (127 &&& 191)) : Nat) = 60 := by decide
  have k2 : (254 &&& (253 &&& (127 &&& (191 &&& 2))) : Nat) = 0 := by decide
  have k3 : (254 &&& (253 &&& (127 &&& (191 &&& 128))) : Nat) = 0 := by decide
  have k4 : (254 &&& (253 &&& (127 &&& (191 &&& 64))) : Nat) = 0 := by decide
  rw [k1, k2, k3, k4]
  refine ⟨?_, Nat.and_zero _, Nat.and_zero _, Nat.and_zero _⟩
  rw [← Nat.and_one_is_mod, Nat.land_assoc]
  have k5 : ((60 : Nat) &&& 1) = 0 := by decide
  rw [k5]
  exact Nat.and_zero _

/-- Witness for the amended C2 at the concrete SBC scenario state. -/
theorem c2_sbc_borrow_amended_witness :
    sbcTestState.isImpliedAddr = false ∧
    sbcTestState.A = 0x50 ∧
    sbcTestState.Status &&& statusFlagC = 1 ∧
    sbcTestState.mem ((sbcTestState.Pc + 1) % 65536) = 0xF0 ∧
    ((cpuClockSbcImm sbcTestState).A = 0x60 ∧
     (cpuClockSbcImm sbcTestState).Status &&& statusFlagC = 0 ∧
     (cpuClockSbcImm sbcTestState).Status &&& statusFlagZ = 0 ∧
     (cpuClockSbcImm sbcTestState).Status &&& statusFlagN = 0 ∧
     (cpuClockSbcImm sbcTestState).Status &&& statusFlagV = 0) :=
  ⟨rfl, rfl, by decide, by decide,
    c2_sbc_borrow_amended sbcTestState rfl rfl (by decide) (by decide)⟩

/-- C4 counterexample: servicing an NMI takes 8 cycles, not 7, and the
status byte pushed to the stack (here to 0x01FB) has the B flag set,
not cleared. -/
theorem c4_nmi_cex :
    (cpuNMI nmiTestState).Cycles = 8 ∧
    (cpuNMI nmiTestState).Cycles ≠ 7 ∧
    (cpuNMI nmiTestState).mem 0x01FB &&& statusFlagB = statusFlagB := by
  decide

/-- C4 as amended: for every CPU state (with a byte-sized stack
pointer), NMI pushes PC high then PC low, then pushes P with the I, B
and X bits all set (B is set, not cleared, and I is set before the
push), leaves those bits set in the status register, loads PC from the
16-bit little-endian vector at 0xFFFA/0xFFFB, and consumes exactly 8
cycles. -/
theorem c4_nmi_amended (s : Cpu6502) (hSp : s.Sp < 256) :
    (cpuNMI s).Cycles = 8 ∧
    (cpuNMI s).Status = s.Status ||| statusFlagI ||| statusFlagB ||| statusFlagX ∧
    (cpuNMI s).Sp = (s.Sp + 253) % 256 ∧
    (cpuNMI s).mem (0x0100 ||| s.Sp) = (s.Pc >>> 8) &&& 0xFF ∧
    (cpuNMI s).mem (0x0100 ||| ((s.Sp + 255) % 256)) = s.Pc &&& 0xFF ∧
    (cpuNMI s).mem (0x0100 ||| ((s.Sp + 254) % 256)) =
      s.Status ||| statusFlagI ||| statusFlagB ||| statusFlagX ∧
    ((cpuNMI s).mem (0x0100 ||| ((s.Sp + 254) % 256))) &&& statusFlagB = statusFlagB ∧
    (cpuNMI s).Pc = (s.mem 0xFFFB <<< 8) ||| s.mem 0xFFFA := by
  have h1 : (s.Sp + 255) % 256 < 256 := Nat.mod_lt _ (by norm_num)
  have h2 : (s.Sp + 254) % 256 < 256 := Nat.mod_lt _ (by norm_num)
  have e1 := stackBaseOr s.Sp hSp
  have e2 := stackBaseOr _ h1
  have e3 := stackBaseOr _ h2
  have hSp2 : ((s.Sp + 255) % 256 + 255) % 256 = (s.Sp + 254) % 256 := by omega
  have hSp3 : ((s.Sp + 254) % 256 + 255) % 256 = (s.Sp + 253) % 256 := by omega
  have hmem : (cpuNMI s).mem = fun a =>
      if a = 0x0100 + (s.Sp + 254) % 256 then
        s.Status ||| statusFlagI ||| statusFlagB ||| statusFlagX
      else if a = 0x0100 + (s.Sp + 255) % 256 then s.Pc &&& 0xFF
      else if a = 0x0100 + s.Sp then (s.Pc >>> 8) &&& 0xFF
      else s.mem a := by
    simp only [cpuNMI, stackPush, cpuWrite, cpuReadWord, setFlag, if_true,
      hSp2, hSp3, e1, e2, e3]
  have hst : (cpuNMI s).Status =
      s.Status ||| statusFlagI ||| statusFlagB ||| statusFlagX := by
    simp only [cpuNMI, stackPush, cpuWrite, cpuReadWord, setFlag, if_true]
  have hsp : (cpuNMI s).Sp = (s.Sp + 253) % 256 := by
    simp only [cpuNMI, stackPush, cpuWrite, cpuReadWord, setFlag, if_true,
      hSp2, hSp3]
  have hcyc : (cpuNMI s).Cycles = 8 := by
    simp only [cpuNMI, stackPush, cpuWrite, cpuReadWord, setFlag, if_true]
  have hpc : (cpuNMI s).Pc =
      ((cpuNMI s).mem ((0xFFFA + 1) % 65536) <<< 8) ||| (cpuNMI s).mem 0xFFFA := by
    simp only [cpuNMI, stackPush, cpuWrite, cpuReadWord, setFlag, if_true,
      nmiVectAddr]
  refine ⟨hcyc, hst, hsp, ?_, ?_, ?_, ?_, ?_⟩
  · rw [e1, hmem]
    simp only []
    rw [if_neg (by omega), if_neg (by omega), if_pos trivial]
  · rw [e2, hmem]
    simp only []
    rw [if_neg (by omega), if_pos trivial]
  · rw [e3, hmem]
    simp only []
    rw [if_pos trivial]
  · rw [e3, hmem]
    simp only []
    rw [if_pos trivial]
    rw [Nat.and_distrib_right]
    rw [show (statusFlagX &&& statusFlagB : Nat) = 0 from by decide]
    rw [Nat.or_zero, Nat.and_distrib_right]
    rw [show (statusFlagB &&& statusFlagB : Nat) = statusFlagB from by decide]
    rw [Nat.and_distrib_right]
    rw [show (statusFlagI &&& statusFlagB : Nat) = 0 from by decide]
    rw [Nat.or_zero]
    have ht := Nat.and_two_pow s.Status 4
    norm_num at ht
    rw [show (statusFlagB : Nat) = 16 from rfl, ht]
    cases s.Status.testBit 4 <;> simp
  · rw [hpc, hmem]
    norm_num
    rw [if_neg (by omega), if_neg (by omega), if_neg (by omega),
      if_neg (by omega), if_neg (by omega), if_neg (by omega)]

/-- Witness for the amended C4 at the concrete NMI scenario state. -/
theorem c4_nmi_amended_witness :
    nmiTestState.Sp < 256 ∧
    ((cpuNMI nmiTestState).Cycles = 8 ∧
     (cpuNMI nmiTestState).Status =
       nmiTestState.Status ||| statusFlagI ||| statusFlagB ||| statusFlagX ∧
     (cpuNMI nmiTestState).Sp = (nmiTestState.Sp + 253) % 256 ∧
     (cpuNMI nmiTestState).mem (0x0100 ||| nmiTestState.Sp) =
       (nmiTestState.Pc >>> 8) &&& 0xFF ∧
     (cpuNMI nmiTestState).mem (0x0100 ||| ((nmiTestState.Sp + 255) % 256)) =
       nmiTestState.Pc &&& 0xFF ∧
     (cpuNMI nmiTestState).mem (0x0100 ||| ((nmiTestState.Sp + 254) % 256)) =
       nmiTestState.Status ||| statusFlagI ||| statusFlagB ||| statusFlagX ∧
     ((cpuNMI nmiTestState).mem (0x0100 ||| ((nmiTestState.Sp + 254) % 256))) &&&
       statusFlagB = statusFlagB ∧
     (cpuNMI nmiTestState).Pc =
       (nmiTestState.mem 0xFFFB <<< 8) ||| nmiTestState.mem 0xFFFA) :=
  ⟨by decide, c4_nmi_amended nmiTestState (by decide)⟩

/-- C3: executing JMP ($10FF) with [0x10FF]=0x34, [0x1100]=0x00,
[0x1000]=0x12 sets PC to 0x1234: the high byte of the target comes from
the start of the pointer's page (0x1000), not from 0x1100. -/
theorem c3_jmp_indirect_bug :
    (cpuClockJmpInd
      { Pc := 0x0400, Sp := 0xFD, A := 0, X := 0, Y := 0, Status := 0,
        Cycles := 0, Opcode := 0, AddrAbs := 0, AddrRel := 0, Fetched := 0,
        isImpliedAddr := false, CycleCount := 0,
        mem := fun a =>
          if a = 0x0400 then 0x6C
          else if a = 0x0401 then 0xFF
          else if a = 0x0402 then 0x10
          else if a = 0x10FF then 0x34
          else if a = 0x1100 then 0x00
          else if a = 0x1000 then 0x12
          else 0 }).Pc = 0x1234 := by
  decide

/-- C5: for every PPU state, a CPU read of PPUSTATUS (port 0x2002,
mirrored to register index 2) returns the sprite-overflow, sprite-0-hit
and V-blank flags in the top three bits of the status byte and, in the
same step, clears the V-blank flag and resets the write-toggle (address
latch) to 0, the state in which the next PPUSCROLL or PPUADDR write
takes the first-write branch. -/
theorem c5_ppustatus_read (p : Ppu) :
    ppuCpuRead p (0x2002 &&& 0x0007) =
      (p.ppuStatus &&& (statusVBlank ||| statusSprite0Hit ||| statusSpriteOverflow),
       { p with ppuStatus := p.ppuStatus &&& (0xFF ^^^ statusVBlank),
                addrLatch := 0 }) := by
  have h2 : (0x2002 &&& 0x0007 : Nat) = 2 := by decide
  rw [h2]
  simp only [ppuCpuRead, ppuRegClearFlag, statusVBlank, statusSprite0Hit,
    statusSpriteOverflow]
  norm_num
  rw [show (128 ||| 64 ||| 32 : Nat) = 224 from by decide]

/-- C6: for every PPU state, a CPU read of PPUDATA (port 0x2007,
mirrored to register index 7) returns the one-byte read buffer, except
that when V ≥ 0x3F00 the freshly fetched byte (the palette entry at V)
is returned directly with no one-read delay; in both cases the buffer
is refilled from PPU address V, and V is then incremented by 32 when
PPUCTRL's increment-32 bit is set and by 1 otherwise. -/
theorem c6_ppudata_read (p : Ppu) :
    ppuCpuRead p (0x2007 &&& 0x0007) =
      ((if 0x3F00 ≤ p.vRam then ppuRead p p.vRam else p.dataBuffer),
       { p with dataBuffer := ppuRead p p.vRam,
                vRam := (p.vRam +
                  (if p.ppuCtrl &&& ctrlVramInc = 0 then 1 else 32)) % 65536 }) := by
  have h7 : (0x2007 &&& 0x0007 : Nat) = 7 := by decide
  rw [h7]
  by_cases h : p.ppuCtrl &&& ctrlVramInc = 0 <;>
    simp [ppuCpuRead, ppuRegGetFlag, h]

/-- C9 (code evaluated at the failing input): a 16-byte iNES image with
valid magic whose flags select mapper 1 is accepted without any error:
`NewCartridge` leaves the mapper unset and returns nil (`ok none`)
instead of failing fatally. -/
theorem c9_unsupported_mapper_not_refused :
    inesMapperId 0x10 0x00 = 1 ∧
    newCartridge
      [0x4E, 0x45, 0x53, 0x1A, 0, 0, 0x10, 0, 0, 0, 0, 0, 0, 0, 0, 0] =
      Except.ok none := by
  constructor
  · decide
  · rfl

/-- A PPU timing tick in the middle of a scanline (1 ≤ cycle ≤ 339)
just increments the cycle counter. -/
theorem ptcMid (sl : Int) (c f m : Nat) (hc1 : 1 ≤ c) (hc2 : c ≤ 339) :
    ppuTimingClock ⟨sl, c, f, m⟩ = ⟨sl, c + 1, f, m⟩ := by
  have hskip : ¬(-1 ≤ sl ∧ sl < 240 ∧ sl = 0 ∧ c = 0 ∧ f % 2 = 1) := by
    rintro ⟨-, -, -, h, -⟩
    omega
  have hwrap : ¬(341 ≤ c + 1) := by omega
  dsimp only [ppuTimingClock]
  rw [if_neg hskip, if_neg hwrap]

/-- A PPU timing tick at cycle 340 of a scanline below 260 moves to
cycle 0 of the next scanline. -/
theorem ptcEnd (sl : Int) (f m : Nat) (hsl : sl ≤ 259) :
    ppuTimingClock ⟨sl, 340, f, m⟩ = ⟨sl + 1, 0, f, m⟩ := by
  have hskip : ¬(-1 ≤ sl ∧ sl < 240 ∧ sl = 0 ∧ (340 : Nat) = 0 ∧ f % 2 = 1) := by
    rintro ⟨-, -, -, h, -⟩
    omega
  have hwrap : (341 : Nat) ≤ 340 + 1 := by omega
  have hframe : ¬(261 ≤ sl + 1) := by omega
  dsimp only [ppuTimingClock]
  rw [if_neg hskip, if_pos hwrap, if_neg hframe]

/-- A PPU timing tick at cycle 340 of scanline 260 wraps to the
pre-render scanline -1 and counts a finished frame. -/
theorem ptcEndFrame (f m : Nat) :
    ppuTimingClock ⟨260, 340, f, m⟩ = ⟨-1, 0, f + 1, m⟩ := by
  have hskip : ¬(-1 ≤ (260 : Int) ∧ (260 : Int) < 240 ∧ (260 : Int) = 0 ∧
      (340 : Nat) = 0 ∧ f % 2 = 1) := by
    rintro ⟨-, h, -⟩
    omega
  have hwrap : (341 : Nat) ≤ 340 + 1 := by omega
  have hframe : (261 : Int) ≤ 260 + 1 := by omega
  dsimp only [ppuTimingClock]
  rw [if_neg hskip, if_pos hwrap, if_pos hframe]

/-- A PPU timing tick at cycle 0 without the odd-frame skip. -/
theorem ptcStart (sl : Int) (f m : Nat) (h : ¬(sl = 0 ∧ f % 2 = 1)) :
    ppuTimingClock ⟨sl, 0, f, m⟩ = ⟨sl, 1, f, m⟩ := by
  have hskip : ¬(-1 ≤ sl ∧ sl < 240 ∧ sl = 0 ∧ (0 : Nat) = 0 ∧ f % 2 = 1) := by
    rintro ⟨-, -, h1, -, h2⟩
    exact h ⟨h1, h2⟩
  have hwrap : ¬((341 : Nat) ≤ 0 + 1) := by omega
  dsimp only [ppuTimingClock]
  rw [if_neg hskip, if_neg hwrap]

/-- A PPU timing tick at (scanline 0, cycle 0) on an odd frame skips a
cycle: the counter lands on 2, regardless of the mask register. -/
theorem ptcSkip (f m : Nat) (hf : f % 2 = 1) :
    ppuTimingClock ⟨0, 0, f, m⟩ = ⟨0, 2, f, m⟩ := by
  have hskip : (-1 ≤ (0 : Int) ∧ (0 : Int) < 240 ∧ (0 : Int) = 0 ∧
      (0 : Nat) = 0 ∧ f % 2 = 1) := ⟨by norm_num, by norm_num, rfl, rfl, hf⟩
  have hwrap : ¬((341 : Nat) ≤ 0 + 1 + 1) := by omega
  dsimp only [ppuTimingClock]
  rw [if_pos hskip, if_neg hwrap]

/-- Running the PPU timing clock from cycle c ≥ 1 to the end of a
scanline below 260 takes 341 - c ticks. -/
theorem ptcRunToEnd : ∀ (n : Nat), 1 ≤ n → n ≤ 340 →
    ∀ (sl : Int) (f m : Nat), sl ≤ 259 →
    ppuTimingClock^[n] ⟨sl, 341 - n, f, m⟩ = ⟨sl + 1, 0, f, m⟩ := by
  intro n
  induction n with
  | zero => omega
  | succ k ih =>
    intro _ hn sl f m hsl
    rw [Function.iterate_succ_apply]
    by_cases hk : k = 0
    · subst hk
      norm_num
      exact ptcEnd sl f m hsl
    · have hc : (341 - (k + 1) : Nat) + 1 = 341 - k := by omega
      rw [ptcMid sl (341 - (k + 1)) f m (by omega) (by omega), hc]
      exact ih (by omega) (by omega) sl f m hsl

/-- Running the PPU timing clock from cycle c ≥ 1 of scanline 260 to
the frame wrap takes 341 - c ticks. -/
theorem ptcRunToWrap : ∀ (n : Nat), 1 ≤ n → n ≤ 340 →
    ∀ (f m : Nat),
    ppuTimingClock^[n] ⟨260, 341 - n, f, m⟩ = ⟨-1, 0, f + 1, m⟩ := by
  intro n
  induction n with
  | zero => omega
  | succ k ih =>
    intro _ hn f m
    rw [Function.iterate_succ_apply]
    by_cases hk : k = 0
    · subst hk
      norm_num
      exact ptcEndFrame f m
    · have hc : (341 - (k + 1) : Nat) + 1 = 341 - k := by omega
      rw [ptcMid 260 (341 - (k + 1)) f m (by omega) (by omega), hc]
      exact ih (by omega) (by omega) f m

/-- A full 341-tick scanline: from cycle 0 of any scanline below 260
that does not trigger the odd-frame skip. -/
theorem ptcScanline (sl : Int) (f m : Nat) (h : ¬(sl = 0 ∧ f % 2 = 1))
    (hsl : sl ≤ 259) :
    ppuTimingClock^[341] ⟨sl, 0, f, m⟩ = ⟨sl + 1, 0, f, m⟩ := by
  rw [show (341 : Nat) = 340 + 1 from rfl, Function.iterate_add_apply]
  rw [Function.iterate_one, ptcStart sl f m h]
  have h340 := ptcRunToEnd 340 (by norm_num) (by norm_num) sl f m hsl
  rw [show (341 - 340 : Nat) = 1 from rfl] at h340
  exact h340

/-- Scanline 0 of an odd frame completes in 340 ticks: the (0, 0) slot
is skipped. -/
theorem ptcScanlineSkip (f m : Nat) (hf : f % 2 = 1) :
    ppuTimingClock^[340] ⟨0, 0, f, m⟩ = ⟨1, 0, f, m⟩ := by
  rw [show (340 : Nat) = 339 + 1 from rfl, Function.iterate_add_apply]
  rw [Function.iterate_one, ptcSkip f m hf]
  have h339 := ptcRunToEnd 339 (by norm_num) (by norm_num) 0 f m (by norm_num)
  rw [show (341 - 339 : Nat) = 2 from rfl] at h339
  exact h339

/-- The closing scanline 260: 341 ticks to the frame wrap. -/
theorem ptcScanlineLast (f m : Nat) :
    ppuTimingClock^[341] ⟨260, 0, f, m⟩ = ⟨-1, 0, f + 1, m⟩ := by
  rw [show (341 : Nat) = 340 + 1 from rfl, Function.iterate_add_apply]
  rw [Function.iterate_one, ptcStart 260 f m (by rintro ⟨h, -⟩; omega)]
  have h340 := ptcRunToWrap 340 (by norm_num) (by norm_num) f m
  rw [show (341 - 340 : Nat) = 1 from rfl] at h340
  exact h340

/-- A block of k consecutive full scanlines starting at scanline ≥ 1. -/
theorem ptcScanBlock : ∀ (k : Nat) (sl : Int) (f m : Nat), 1 ≤ sl →
    sl + k ≤ 260 →
    ppuTimingClock^[341 * k] ⟨sl, 0, f, m⟩ = ⟨sl + k, 0, f, m⟩ := by
  intro k
  induction k with
  | zero => intro sl f m _ _; norm_num
  | succ j ih =>
    intro sl f m h1 h2
    rw [show 341 * (j + 1) = 341 * j + 341 from by ring, Function.iterate_add_apply]
    rw [ptcScanline sl f m (by rintro ⟨h, -⟩; omega) (by push_cast at h2 ⊢; omega)]
    have hj := ih (sl + 1) f m (by omega) (by push_cast at h2 ⊢; omega)
    rw [hj]
    congr 1
    push_cast
    ring

/-- C8 counterexample: at (scanline 0, cycle 0) of an odd frame with
MASK = 0 — both the show-background and show-sprite bits clear, i.e.
rendering disabled — the tick still skips a cycle (the counter jumps
from 0 to 2), so the skip is not conditional on rendering being
enabled. -/
theorem c8_odd_frame_skip_cex :
    (0 : Nat) &&& (maskBgShow ||| maskSpriteShow) = 0 ∧
    ppuTimingClock ⟨0, 0, 1, 0⟩ = ⟨0, 2, 1, 0⟩ := by
  constructor
  · decide
  · decide

/-- C8 as amended: for every frame counter f and every MASK value m —
rendering enabled or not — the PPU steps through exactly 262 scanlines
(-1..260) of 341 cycles each, except that the (scanline 0, cycle 0)
slot is skipped when the frame counter is odd: a frame takes
341·262 - (f % 2) ticks to return to the pre-render scanline. -/
theorem c8_frame_timing_amended (f m : Nat) :
    ppuTimingClock^[341 * 262 - f % 2] ⟨-1, 0, f, m⟩ = ⟨-1, 0, f + 1, m⟩ := by
  rcases Nat.mod_two_eq_zero_or_one f with hf | hf
  · rw [hf]
    rw [show 341 * 262 - 0 = 341 + (341 * 259 + (341 + 341)) from by norm_num]
    rw [Function.iterate_add_apply, Function.iterate_add_apply,
      Function.iterate_add_apply]
    rw [ptcScanline (-1) f m (by rintro ⟨h, -⟩; omega) (by norm_num)]
    rw [show ((-1 : Int) + 1) = 0 from by norm_num]
    rw [ptcScanline 0 f m (by rintro ⟨-, h⟩; omega) (by norm_num)]
    rw [show ((0 : Int) + 1) = 1 from by norm_num]
    rw [ptcScanBlock 259 1 f m (by norm_num) (by norm_num)]
    rw [show ((1 : Int) + (259 : Nat)) = 260 from by norm_num]
    exact ptcScanlineLast f m
  · rw [hf]
    rw [show 341 * 262 - 1 = 341 + (341 * 259 + (340 + 341)) from by norm_num]
    rw [Function.iterate_add_apply, Function.iterate_add_apply,
      Function.iterate_add_apply]
    rw [ptcScanline (-1) f m (by rintro ⟨h, -⟩; omega) (by norm_num)]
    rw [show ((-1 : Int) + 1) = 0 from by norm_num]
    rw [ptcScanlineSkip f m hf]
    rw [ptcScanBlock 259 1 f m (by norm_num) (by norm_num)]
    rw [show ((1 : Int) + (259 : Nat)) = 260 from by norm_num]
    exact ptcScanlineLast f m

/-- C10: the cartridge constructor never returns a cartridge: on every
input it either fails or returns nil (`ok none`); the fully constructed
value is discarded. -/
theorem c10_new_cartridge_returns_nil (data : List Nat) (c : Cartridge) :
    newCartridge data ≠ Except.ok (some c) := by
  intro h
  unfold newCartridge at h
  repeat split_ifs at h <;> simp_all

/-- Witness for C10 at a concrete, fully parsing mapper-0 ROM image
and an arbitrary concrete cartridge value. -/
theorem c10_new_cartridge_returns_nil_witness :
    newCartridge
      [0x4E, 0x45, 0x53, 0x1A, 0, 0, 0, 0, 0, 0, 0, 0, 0, 0, 0, 0] ≠
      Except.ok (some ⟨[], [], some ⟨0, 0⟩⟩) :=
  c10_new_cartridge_returns_nil
    [0x4E, 0x45, 0x53, 0x1A, 0, 0, 0, 0, 0, 0, 0, 0, 0, 0, 0, 0]
    ⟨[], [], some ⟨0, 0⟩⟩


/-- A master tick that is not a CPU slot (master count not divisible by
3) with the PPU's NMI flag down and no NMI edge raised only clocks the
PPU. -/
theorem tickIdle (raise : Nat → Bool) (cc pg da dd : Nat) (dt ds : Bool)
    (ram oam : Nat → Nat) (ct pt sp pc st vl vh : Nat)
    (h : ¬(cc % 3 = 0)) (hr : raise cc = false) :
    busClock raise ⟨cc, pg, da, dd, dt, ds, ram, oam, ct, pt, false,
      sp, pc, st, vl, vh⟩ =
      ⟨cc + 1, pg, da, dd, dt, ds, ram, oam, ct, pt + 1, false,
       sp, pc, st, vl, vh⟩ := by
  simp [busClock, h, hr]

/-- A CPU-slot master tick with no DMA transfer and no NMI pending
clocks the CPU. -/
theorem tickCpu (raise : Nat → Bool) (cc pg da dd : Nat) (ds : Bool)
    (ram oam : Nat → Nat) (ct pt sp pc st vl vh : Nat)
    (h : cc % 3 = 0) (hr : raise cc = false) :
    busClock raise ⟨cc, pg, da, dd, false, ds, ram, oam, ct, pt, false,
      sp, pc, st, vl, vh⟩ =
      ⟨cc + 1, pg, da, dd, false, ds, ram, oam, ct + 1, pt + 1, false,
       sp, pc, st, vl, vh⟩ := by
  simp [busClock, h, hr]

/-- A CPU-slot tick during the DMA sync phase on an odd master count
clears the sync flag. -/
theorem tickSyncHit (raise : Nat → Bool) (cc pg da dd : Nat)
    (ram oam : Nat → Nat) (ct pt sp pc st vl vh : Nat)
    (h3 : cc % 3 = 0) (h2 : cc % 2 = 1) (hr : raise cc = false) :
    busClock raise ⟨cc, pg, da, dd, true, true, ram, oam, ct, pt, false,
      sp, pc, st, vl, vh⟩ =
      ⟨cc + 1, pg, da, dd, true, false, ram, oam, ct, pt + 1, false,
       sp, pc, st, vl, vh⟩ := by
  simp [busClock, busDmaTick, h3, h2, hr]

/-- A CPU-slot tick during the DMA sync phase on an even master count
is wasted. -/
theorem tickSyncMiss (raise : Nat → Bool) (cc pg da dd : Nat)
    (ram oam : Nat → Nat) (ct pt sp pc st vl vh : Nat)
    (h3 : cc % 3 = 0) (h2 : ¬(cc % 2 = 1)) (hr : raise cc = false) :
    busClock raise ⟨cc, pg, da, dd, true, true, ram, oam, ct, pt, false,
      sp, pc, st, vl, vh⟩ =
      ⟨cc + 1, pg, da, dd, true, true, ram, oam, ct, pt + 1, false,
       sp, pc, st, vl, vh⟩ := by
  simp [busClock, busDmaTick, h3, h2, hr]

/-- A CPU-slot tick of the transfer phase on an even master count reads
the next byte of CPU memory into the DMA data latch. -/
theorem tickRead (raise : Nat → Bool) (cc pg da dd : Nat)
    (ram oam : Nat → Nat) (ct pt sp pc st vl vh : Nat)
    (h3 : cc % 3 = 0) (h2 : cc % 2 = 0) (hr : raise cc = false) :
    busClock raise ⟨cc, pg, da, dd, true, false, ram, oam, ct, pt, false,
      sp, pc, st, vl, vh⟩ =
      ⟨cc + 1, pg, da, busCpuReadRam ram ((pg <<< 8) ||| da), true, false, ram,
        oam, ct, pt + 1, false, sp, pc, st, vl, vh⟩ := by
  simp [busClock, busDmaTick, h3, h2, hr]

/-- A CPU-slot tick of the transfer phase on an odd master count writes
the latched byte to OAM and advances the DMA address (non-final byte). -/
theorem tickWriteMid (raise : Nat → Bool) (cc pg da dd : Nat)
    (ram oam : Nat → Nat) (ct pt sp pc st vl vh : Nat)
    (h3 : cc % 3 = 0) (h2 : ¬(cc % 2 = 0)) (ha : da < 255)
    (hr : raise cc = false) :
    busClock raise ⟨cc, pg, da, dd, true, false, ram, oam, ct, pt, false,
      sp, pc, st, vl, vh⟩ =
      ⟨cc + 1, pg, da + 1, dd, true, false, ram,
        fun i => if i = da then dd else oam i, ct, pt + 1, false,
        sp, pc, st, vl, vh⟩ := by
  have hm : (da + 1) % 256 = da + 1 := by omega
  have hz : ¬(da + 1 = 0) := by omega
  simp [busClock, busDmaTick, h3, h2, hm, hz, hr]

/-- The 256th OAM write: the DMA address wraps to 0 and the transfer
ends, rearming the sync flag. -/
theorem tickWriteLast (raise : Nat → Bool) (cc pg dd : Nat)
    (ram oam : Nat → Nat) (ct pt sp pc st vl vh : Nat)
    (h3 : cc % 3 = 0) (h2 : ¬(cc % 2 = 0)) (hr : raise cc = false) :
    busClock raise ⟨cc, pg, 255, dd, true, false, ram, oam, ct, pt, false,
      sp, pc, st, vl, vh⟩ =
      ⟨cc + 1, pg, 0, dd, false, true, ram,
        fun i => if i = 255 then dd else oam i, ct, pt + 1, false,
        sp, pc, st, vl, vh⟩ := by
  simp [busClock, busDmaTick, h3, h2, hr]

/-- Six master ticks starting at a master count divisible by 6 during
the transfer phase, with no NMI edge raised on any of them, move one
byte (read slot, write slot, four idle ticks), for a non-final DMA
address. -/
theorem busDmaPairMid (raise : Nat → Bool) (cc pg da dd : Nat)
    (ram oam : Nat → Nat) (ct pt sp pc st vl vh : Nat)
    (h6 : cc % 6 = 0) (ha : da < 255)
    (hr : ∀ t, t < cc + 6 → raise t = false) :
    (busClock raise)^[6] ⟨cc, pg, da, dd, true, false, ram, oam, ct, pt, false,
      sp, pc, st, vl, vh⟩ =
      ⟨cc + 6, pg, da + 1, busCpuReadRam ram ((pg <<< 8) ||| da), true, false, ram,
       fun i => if i = da then busCpuReadRam ram ((pg <<< 8) ||| da) else oam i,
       ct, pt + 6, false, sp, pc, st, vl, vh⟩ := by
  conv_lhs =>
    rw [show (6 : Nat) = 5 + 1 from rfl, Function.iterate_succ_apply]
    rw [show (5 : Nat) = 4 + 1 from rfl, Function.iterate_succ_apply]
    rw [show (4 : Nat) = 3 + 1 from rfl, Function.iterate_succ_apply]
    rw [show (3 : Nat) = 2 + 1 from rfl, Function.iterate_succ_apply]
    rw [show (2 : Nat) = 1 + 1 from rfl, Function.iterate_succ_apply]
    rw [Function.iterate_one]
  rw [tickRead raise cc pg da dd ram oam ct pt sp pc st vl vh (by omega)
    (by omega) (hr cc (by omega))]
  rw [tickIdle raise (cc + 1) pg da _ true false ram oam ct (pt + 1)
    sp pc st vl vh (by omega) (hr (cc + 1) (by omega))]
  rw [tickIdle raise (cc + 1 + 1) pg da _ true false ram oam ct (pt + 1 + 1)
    sp pc st vl vh (by omega) (hr (cc + 1 + 1) (by omega))]
  rw [tickWriteMid raise (cc + 1 + 1 + 1) pg da _ ram oam ct (pt + 1 + 1 + 1)
    sp pc st vl vh (by omega) (by omega) ha (hr (cc + 1 + 1 + 1) (by omega))]
  rw [tickIdle raise (cc + 1 + 1 + 1 + 1) pg (da + 1) _ true false ram _ ct
    (pt + 1 + 1 + 1 + 1) sp pc st vl vh (by omega)
    (hr (cc + 1 + 1 + 1 + 1) (by omega))]
  rw [tickIdle raise (cc + 1 + 1 + 1 + 1 + 1) pg (da + 1) _ true false ram _ ct
    (pt + 1 + 1 + 1 + 1 + 1) sp pc st vl vh (by omega)
    (hr (cc + 1 + 1 + 1 + 1 + 1) (by omega))]

/-- The final six ticks of a transfer: byte 255 is moved and the
transfer shuts down. -/
theorem busDmaPairLast (raise : Nat → Bool) (cc pg dd : Nat)
    (ram oam : Nat → Nat) (ct pt sp pc st vl vh : Nat)
    (h6 : cc % 6 = 0) (hr : ∀ t, t < cc + 6 → raise t = false) :
    (busClock raise)^[6] ⟨cc, pg, 255, dd, true, false, ram, oam, ct, pt, false,
      sp, pc, st, vl, vh⟩ =
      ⟨cc + 6, pg, 0, busCpuReadRam ram ((pg <<< 8) ||| 255), false, true, ram,
       fun i => if i = 255 then busCpuReadRam ram ((pg <<< 8) ||| 255) else oam i,
       ct, pt + 6, false, sp, pc, st, vl, vh⟩ := by
  conv_lhs =>
    rw [show (6 : Nat) = 5 + 1 from rfl, Function.iterate_succ_apply]
    rw [show (5 : Nat) = 4 + 1 from rfl, Function.iterate_succ_apply]
    rw [show (4 : Nat) = 3 + 1 from rfl, Function.iterate_succ_apply]
    rw [show (3 : Nat) = 2 + 1 from rfl, Function.iterate_succ_apply]
    rw [show (2 : Nat) = 1 + 1 from rfl, Function.iterate_succ_apply]
    rw [Function.iterate_one]
  rw [tickRead raise cc pg 255 dd ram oam ct pt sp pc st vl vh (by omega)
    (by omega) (hr cc (by omega))]
  rw [tickIdle raise (cc + 1) pg 255 _ true false ram oam ct (pt + 1)
    sp pc st vl vh (by omega) (hr (cc + 1) (by omega))]
  rw [tickIdle raise (cc + 1 + 1) pg 255 _ true false ram oam ct (pt + 1 + 1)
    sp pc st vl vh (by omega) (hr (cc + 1 + 1) (by omega))]
  rw [tickWriteLast raise (cc + 1 + 1 + 1) pg _ ram oam ct (pt + 1 + 1 + 1)
    sp pc st vl vh (by omega) (by omega) (hr (cc + 1 + 1 + 1) (by omega))]
  rw [tickIdle raise (cc + 1 + 1 + 1 + 1) pg 0 _ false true ram _ ct
    (pt + 1 + 1 + 1 + 1) sp pc st vl vh (by omega)
    (hr (cc + 1 + 1 + 1 + 1) (by omega))]
  rw [tickIdle raise (cc + 1 + 1 + 1 + 1 + 1) pg 0 _ false true ram _ ct
    (pt + 1 + 1 + 1 + 1 + 1) sp pc st vl vh (by omega)
    (hr (cc + 1 + 1 + 1 + 1 + 1) (by omega))]

/-- The whole transfer phase: k remaining bytes (DMA address 256 - k)
take 6·k master ticks with no NMI edge raised on any of them, never
clock the CPU, and copy the remaining bytes into OAM. -/
theorem busDmaRun : ∀ (k : Nat) (raise : Nat → Bool) (cc pg da dd : Nat)
    (ram oam : Nat → Nat) (ct pt sp pc st vl vh : Nat),
    1 ≤ k → da + k = 256 → cc % 6 = 0 →
    (∀ t, t < cc + 6 * k → raise t = false) →
    (busClock raise)^[6 * k] ⟨cc, pg, da, dd, true, false, ram, oam, ct, pt,
      false, sp, pc, st, vl, vh⟩ =
      ⟨cc + 6 * k, pg, 0, busCpuReadRam ram ((pg <<< 8) ||| 255), false, true, ram,
       fun i => if da ≤ i ∧ i < 256 then busCpuReadRam ram ((pg <<< 8) ||| i)
         else oam i,
       ct, pt + 6 * k, false, sp, pc, st, vl, vh⟩ := by
  intro k
  induction k with
  | zero =>
    intro raise cc pg da dd ram oam ct pt sp pc st vl vh h1 _ _ _; omega
  | succ j ih =>
    intro raise cc pg da dd ram oam ct pt sp pc st vl vh h1 hsum h6 hr
    by_cases hj : j = 0
    · subst hj
      have hda : da = 255 := by omega
      subst hda
      rw [show 6 * 1 = 6 from rfl]
      rw [busDmaPairLast raise cc pg dd ram oam ct pt sp pc st vl vh h6
        (fun t ht => hr t (by omega))]
      congr 1
      funext i
      by_cases hi : i = 255
      · subst hi
        rw [if_pos rfl, if_pos (by omega)]
      · rw [if_neg hi, if_neg (by omega)]
    · have hda : da < 255 := by omega
      rw [show 6 * (j + 1) = 6 * j + 6 from by ring, Function.iterate_add_apply]
      rw [busDmaPairMid raise cc pg da dd ram oam ct pt sp pc st vl vh h6 hda
        (fun t ht => hr t (by omega))]
      rw [ih raise (cc + 6) pg (da + 1) _ ram _ ct (pt + 6) sp pc st vl vh
        (by omega) (by omega) (by omega) (fun t ht => hr t (by omega))]
      congr 1
      · omega
      · funext i
        rcases Nat.lt_trichotomy i da with h | h | h
        · rw [if_neg (by omega), if_neg (by omega), if_neg (by omega)]
        · subst h
          rw [if_neg (by omega), if_pos rfl, if_pos (by omega)]
        · by_cases h2 : i < 256
          · rw [if_pos (by omega), if_pos (by omega)]
          · rw [if_neg (by omega), if_neg (by omega), if_neg (by omega)]
      · omega

/-- The sync phase when the 0x4014 write happened at an even master
count (master count ≡ 1 mod 6 afterwards): two idle ticks, the sync
slot hits an odd count, two more idle ticks — 5 master ticks. -/
theorem busDmaSyncA (raise : Nat → Bool) (cc pg da dd : Nat)
    (ram oam : Nat → Nat) (ct pt sp pc st vl vh : Nat)
    (h6 : cc % 6 = 1) (hr : ∀ t, t < cc + 5 → raise t = false) :
    (busClock raise)^[5] ⟨cc, pg, da, dd, true, true, ram, oam, ct, pt, false,
      sp, pc, st, vl, vh⟩ =
      ⟨cc + 5, pg, da, dd, true, false, ram, oam, ct, pt + 5, false,
       sp, pc, st, vl, vh⟩ := by
  conv_lhs =>
    rw [show (5 : Nat) = 4 + 1 from rfl, Function.iterate_succ_apply]
    rw [show (4 : Nat) = 3 + 1 from rfl, Function.iterate_succ_apply]
    rw [show (3 : Nat) = 2 + 1 from rfl, Function.iterate_succ_apply]
    rw [show (2 : Nat) = 1 + 1 from rfl, Function.iterate_succ_apply]
    rw [Function.iterate_one]
  rw [tickIdle raise cc pg da dd true true ram oam ct pt sp pc st vl vh
    (by omega) (hr cc (by omega))]
  rw [tickIdle raise (cc + 1) pg da dd true true ram oam ct (pt + 1)
    sp pc st vl vh (by omega) (hr (cc + 1) (by omega))]
  rw [tickSyncHit raise (cc + 1 + 1) pg da dd ram oam ct (pt + 1 + 1)
    sp pc st vl vh (by omega) (by omega) (hr (cc + 1 + 1) (by omega))]
  rw [tickIdle raise (cc + 1 + 1 + 1) pg da dd true false ram oam ct
    (pt + 1 + 1 + 1) sp pc st vl vh (by omega) (hr (cc + 1 + 1 + 1) (by omega))]
  rw [tickIdle raise (cc + 1 + 1 + 1 + 1) pg da dd true false ram oam ct
    (pt + 1 + 1 + 1 + 1) sp pc st vl vh (by omega)
    (hr (cc + 1 + 1 + 1 + 1) (by omega))]

/-- The sync phase when the 0x4014 write happened at an odd master
count (master count ≡ 4 mod 6 afterwards): the first sync slot falls on
an even count and is wasted, so the phase takes 8 master ticks - the
source of the extra suspended CPU cycle. -/
theorem busDmaSyncB (raise : Nat → Bool) (cc pg da dd : Nat)
    (ram oam : Nat → Nat) (ct pt sp pc st vl vh : Nat)
    (h6 : cc % 6 = 4) (hr : ∀ t, t < cc + 8 → raise t = false) :
    (busClock raise)^[8] ⟨cc, pg, da, dd, true, true, ram, oam, ct, pt, false,
      sp, pc, st, vl, vh⟩ =
      ⟨cc + 8, pg, da, dd, true, false, ram, oam, ct, pt + 8, false,
       sp, pc, st, vl, vh⟩ := by
  conv_lhs =>
    rw [show (8 : Nat) = 7 + 1 from rfl, Function.iterate_succ_apply]
    rw [show (7 : Nat) = 6 + 1 from rfl, Function.iterate_succ_apply]
    rw [show (6 : Nat) = 5 + 1 from rfl, Function.iterate_succ_apply]
    rw [show (5 : Nat) = 4 + 1 from rfl, Function.iterate_succ_apply]
    rw [show (4 : Nat) = 3 + 1 from rfl, Function.iterate_succ_apply]
    rw [show (3 : Nat) = 2 + 1 from rfl, Function.iterate_succ_apply]
    rw [show (2 : Nat) = 1 + 1 from rfl, Function.iterate_succ_apply]
    rw [Function.iterate_one]
  rw [tickIdle raise cc pg da dd true true ram oam ct pt sp pc st vl vh
    (by omega) (hr cc (by omega))]
  rw [tickIdle raise (cc + 1) pg da dd true true ram oam ct (pt + 1)
    sp pc st vl vh (by omega) (hr (cc + 1) (by omega))]
  rw [tickSyncMiss raise (cc + 1 + 1) pg da dd ram oam ct (pt + 1 + 1)
    sp pc st vl vh (by omega) (by omega) (hr (cc + 1 + 1) (by omega))]
  rw [tickIdle raise (cc + 1 + 1 + 1) pg da dd true true ram oam ct
    (pt + 1 + 1 + 1) sp pc st vl vh (by omega) (hr (cc + 1 + 1 + 1) (by omega))]
  rw [tickIdle raise (cc + 1 + 1 + 1 + 1) pg da dd true true ram oam ct
    (pt + 1 + 1 + 1 + 1) sp pc st vl vh (by omega)
    (hr (cc + 1 + 1 + 1 + 1) (by omega))]
  rw [tickSyncHit raise (cc + 1 + 1 + 1 + 1 + 1) pg da dd ram oam ct
    (pt + 1 + 1 + 1 + 1 + 1) sp pc st vl vh (by omega) (by omega)
    (hr (cc + 1 + 1 + 1 + 1 + 1) (by omega))]
  rw [tickIdle raise (cc + 1 + 1 + 1 + 1 + 1 + 1) pg da dd true false ram oam ct
    (pt + 1 + 1 + 1 + 1 + 1 + 1) sp pc st vl vh (by omega)
    (hr (cc + 1 + 1 + 1 + 1 + 1 + 1) (by omega))]
  rw [tickIdle raise (cc + 1 + 1 + 1 + 1 + 1 + 1 + 1) pg da dd true false ram
    oam ct (pt + 1 + 1 + 1 + 1 + 1 + 1 + 1) sp pc st vl vh (by omega)
    (hr (cc + 1 + 1 + 1 + 1 + 1 + 1 + 1) (by omega))]

set_option maxRecDepth 8000 in
/-- DMA source addresses: for a page below 32 and a byte offset, the
shift-or composition is plain arithmetic. -/
theorem pageOr : ∀ p < 32, ∀ a < 256, (p <<< 8) ||| a = p * 256 + a := by decide

/-- A DMA source read from a work-RAM page lands in RAM through the
2 KiB mirror mask. -/
theorem busCpuReadRamInRange (ram : Nat → Nat) (p a : Nat) (hp : p ≤ 31)
    (ha : a < 256) :
    busCpuReadRam ram ((p <<< 8) ||| a) = ram ((p * 256 + a) &&& 0x7FF) := by
  rw [pageOr p (by omega) a ha]
  unfold busCpuReadRam
  rw [if_pos (by omega)]

/-- C7: writing a work-RAM page P (P ≤ 0x1F) to 0x4014 during the CPU
slot at master count t0 suspends the CPU for exactly 513 CPU slots when
t0 is even and 514 when t0 is odd (one extra when the transfer starts
on an odd cycle): provided the PPU raises no NMI edge over the window
(so the hand-off's stack pushes cannot rewrite the source bytes through
the work-RAM mirror), over the following 3·(513 + t0 % 2) + 2 master
ticks the CPU is never clocked and the transfer completes, the CPU is
clocked again on the very next master tick, the PPU is clocked on every
one of those ticks, and afterwards OAM bytes 0..255 equal the 256 bytes
of CPU memory from 0x{P}00 to 0x{P}FF (work RAM through its 2 KiB
mirror). -/
theorem c7_oam_dma (raise : Nat → Bool) (s : BusDma) (t0 : Nat)
    (hcc : s.clockCount = t0 + 1) (ht0 : t0 % 3 = 0)
    (htr : s.dmaTransfer = true) (hsy : s.dmaNeedSync = true)
    (had : s.dmaAddr = 0) (hpg : s.dmaPage ≤ 0x1F)
    (hnm : s.ppuNmi = false)
    (hr : ∀ t, t < t0 + 3 * (513 + t0 % 2) + 4 → raise t = false) :
    ((busClock raise)^[3 * (513 + t0 % 2) + 2] s).dmaTransfer = false ∧
    ((busClock raise)^[3 * (513 + t0 % 2) + 2] s).cpuTicks = s.cpuTicks ∧
    ((busClock raise)^[3 * (513 + t0 % 2) + 2 + 1] s).cpuTicks =
      s.cpuTicks + 1 ∧
    ((busClock raise)^[3 * (513 + t0 % 2) + 2] s).ppuTicks =
      s.ppuTicks + (3 * (513 + t0 % 2) + 2) ∧
    ∀ i, i < 256 → ((busClock raise)^[3 * (513 + t0 % 2) + 2] s).oam i =
      s.ram ((s.dmaPage * 256 + i) &&& 0x7FF) := by
  obtain ⟨cc, pg, da, dd, dt, ds, ram, oam, ct, pt, nm, sp, pc, st, vl, vh⟩ := s
  dsimp only at hcc htr hsy had hpg hnm hr ⊢
  subst hcc htr hsy had hnm
  rcases Nat.mod_two_eq_zero_or_one t0 with hpar | hpar
  · rw [hpar]
    have h6 : (t0 + 1) % 6 = 1 := by omega
    have hrun : (busClock raise)^[6 * 256 + 5]
        (⟨t0 + 1, pg, 0, dd, true, true, ram, oam, ct, pt, false,
          sp, pc, st, vl, vh⟩ : BusDma) =
        ⟨t0 + 1 + 5 + 6 * 256, pg, 0, busCpuReadRam ram ((pg <<< 8) ||| 255),
         false, true, ram,
         fun i => if 0 ≤ i ∧ i < 256 then busCpuReadRam ram ((pg <<< 8) ||| i)
           else oam i,
         ct, pt + 5 + 6 * 256, false, sp, pc, st, vl, vh⟩ := by
      rw [Function.iterate_add_apply]
      rw [busDmaSyncA raise (t0 + 1) pg 0 dd ram oam ct pt sp pc st vl vh h6
        (fun t ht => hr t (by omega))]
      rw [busDmaRun 256 raise (t0 + 1 + 5) pg 0 dd ram oam ct (pt + 5)
        sp pc st vl vh (by norm_num) (by norm_num) (by omega)
        (fun t ht => hr t (by omega))]
    have hN : 3 * (513 + 0) + 2 = 6 * 256 + 5 := by norm_num
    rw [hN]
    refine ⟨?_, ?_, ?_, ?_, ?_⟩
    · rw [hrun]
    · rw [hrun]
    · rw [Function.iterate_succ_apply', hrun]
      rw [tickCpu raise (t0 + 1 + 5 + 6 * 256) pg 0 _ true ram _ ct
        (pt + 5 + 6 * 256) sp pc st vl vh (by omega)
        (hr (t0 + 1 + 5 + 6 * 256) (by omega))]
    · rw [hrun]
    · intro i hi
      rw [hrun]
      dsimp only
      rw [if_pos ⟨Nat.zero_le i, hi⟩]
      exact busCpuReadRamInRange ram pg i (by omega) hi
  · rw [hpar]
    have h6 : (t0 + 1) % 6 = 4 := by omega
    have hrun : (busClock raise)^[6 * 256 + 8]
        (⟨t0 + 1, pg, 0, dd, true, true, ram, oam, ct, pt, false,
          sp, pc, st, vl, vh⟩ : BusDma) =
        ⟨t0 + 1 + 8 + 6 * 256, pg, 0, busCpuReadRam ram ((pg <<< 8) ||| 255),
         false, true, ram,
         fun i => if 0 ≤ i ∧ i < 256 then busCpuReadRam ram ((pg <<< 8) ||| i)
           else oam i,
         ct, pt + 8 + 6 * 256, false, sp, pc, st, vl, vh⟩ := by
      rw [Function.iterate_add_apply]
      rw [busDmaSyncB raise (t0 + 1) pg 0 dd ram oam ct pt sp pc st vl vh h6
        (fun t ht => hr t (by omega))]
      rw [busDmaRun 256 raise (t0 + 1 + 8) pg 0 dd ram oam ct (pt + 8)
        sp pc st vl vh (by norm_num) (by norm_num) (by omega)
        (fun t ht => hr t (by omega))]
    have hN : 3 * (513 + 1) + 2 = 6 * 256 + 8 := by norm_num
    rw [hN]
    refine ⟨?_, ?_, ?_, ?_, ?_⟩
    · rw [hrun]
    · rw [hrun]
    · rw [Function.iterate_succ_apply', hrun]
      rw [tickCpu raise (t0 + 1 + 8 + 6 * 256) pg 0 _ true ram _ ct
        (pt + 8 + 6 * 256) sp pc st vl vh (by omega)
        (hr (t0 + 1 + 8 + 6 * 256) (by omega))]
    · rw [hrun]
    · intro i hi
      rw [hrun]
      dsimp only
      rw [if_pos ⟨Nat.zero_le i, hi⟩]
      exact busCpuReadRamInRange ram pg i (by omega) hi

/-- Witness for C7: a transfer of page 0x02 started at master count 0
(an even CPU cycle), with the PPU never raising an NMI edge. -/
theorem c7_oam_dma_witness :
    dmaTestState.clockCount = 0 + 1 ∧ (0 : Nat) % 3 = 0 ∧
    dmaTestState.dmaTransfer = true ∧ dmaTestState.dmaNeedSync = true ∧
    dmaTestState.dmaAddr = 0 ∧ dmaTestState.dmaPage ≤ 0x1F ∧
    dmaTestState.ppuNmi = false ∧
    (∀ t, t < 0 + 3 * (513 + (0 : Nat) % 2) + 4 →
      (fun _ : Nat => false) t = false) ∧
    (((busClock (fun _ => false))^[3 * (513 + 0 % 2) + 2]
        dmaTestState).dmaTransfer = false ∧
     ((busClock (fun _ => false))^[3 * (513 + 0 % 2) + 2]
        dmaTestState).cpuTicks = dmaTestState.cpuTicks ∧
     ((busClock (fun _ => false))^[3 * (513 + 0 % 2) + 2 + 1]
        dmaTestState).cpuTicks = dmaTestState.cpuTicks + 1 ∧
     ((busClock (fun _ => false))^[3 * (513 + 0 % 2) + 2]
        dmaTestState).ppuTicks =
       dmaTestState.ppuTicks + (3 * (513 + 0 % 2) + 2) ∧
     ∀ i, i < 256 → ((busClock (fun _ => false))^[3 * (513 + 0 % 2) + 2]
        dmaTestState).oam i =
       dmaTestState.ram ((dmaTestState.dmaPage * 256 + i) &&& 0x7FF)) :=
  ⟨rfl, rfl, rfl, rfl, rfl, by decide, rfl, fun _ _ => rfl,
    c7_oam_dma (fun _ => false) dmaTestState 0 rfl rfl rfl rfl rfl (by decide)
      rfl (fun _ _ => rfl)⟩

end Nes
